import Mathlib

/-!
Shallow embedding of the core of the `seqrepo-rs` crate (alias resolution,
FASTA-directory sequence retrieval and the two cache decorators), together
with theorems settling the specification claims about it.

The definitions below are translated from the Rust sources:
* `src/aliases.rs` (`Query`, `AliasRecord`, `Aliases::find`),
* `src/fasta.rs` (`SeqInfoRecord`, `FastaDir::fetch_seqinfo`,
  `FastaDir::fetch_sequence_part`),
* `src/repo.rs` (`AliasOrSeqId`, `SeqRepo::fetch_sequence_part`),
* `src/cached.rs` (`build_key`, `CacheWritingSeqRepo`, `CacheReadingSeqRepo`),
* `src/error.rs` (`Error`).

External collaborators (the SQLite engine and the noodles indexed
block-gzip reader) are modelled by their contracts: the relational store is
a list of typed rows with the WHERE/ORDER BY clauses that the code builds
interpreted as filter/sort on those rows, and the indexed reader is an
abstract function parameter receiving exactly the arguments the code hands
to it.  Rust panics (`.expect`, `.unwrap`) are modelled as an explicit
`panicked` outcome, distinct from returned errors.
-/

namespace SeqRepo

/-- A raw row of the `seqalias` table (columns `seqalias_id`, `seq_id`,
`alias`, `added`, `is_current`, `namespace`); the timestamp is the raw TEXT
stored in the database. -/
structure AliasRow where
  seqalias_id : Nat
  seqid : String
  aliasText : String
  added : String
  is_current : Bool
  nspace : String
deriving DecidableEq

/-- Parsed timestamp, result of `NaiveDateTime::parse_from_str` with format
`"%Y-%m-%d %H:%M:%S"`. -/
structure Timestamp where
  year : Nat
  month : Nat
  day : Nat
  hour : Nat
  minute : Nat
  second : Nat
deriving DecidableEq

/-- Value of a single decimal digit character, `none` for a non-digit. -/
def digitVal (c : Char) : Option Nat :=
  if c.isDigit then some (c.toNat - 48) else none

/-- Interpret a list of decimal digit characters as a number; `none` if the
list is empty or contains a non-digit. -/
def digitsToNat (l : List Char) : Option Nat :=
  if l.isEmpty then none
  else
    l.foldl
      (fun acc c =>
        match acc, digitVal c with
        | some a, some d => some (a * 10 + d)
        | _, _ => none)
      (some 0)

/-- Split a character list at every occurrence of the separator `c`. -/
def splitOnChar (c : Char) : List Char → List (List Char)
  | [] => [[]]
  | x :: xs =>
    match splitOnChar c xs with
    | [] => [[]]
    | cur :: rest => if x = c then [] :: cur :: rest else (x :: cur) :: rest

/-- Model of `NaiveDateTime::parse_from_str(s, "%Y-%m-%d %H:%M:%S")`:
`"<year>-<month>-<day> <hour>:<minute>:<second>"` in decimal digits with
the calendar/clock fields range-checked; `none` when the string does not
have this shape. -/
def parseTimestamp (s : String) : Option Timestamp :=
  match splitOnChar ' ' s.toList with
  | [d, t] =>
    match splitOnChar '-' d, splitOnChar ':' t with
    | [ys, mos, das], [hs, mis, ses] =>
      match digitsToNat ys, digitsToNat mos, digitsToNat das,
          digitsToNat hs, digitsToNat mis, digitsToNat ses with
      | some y, some mo, some da, some h, some mi, some se =>
        if 1 ≤ mo ∧ mo ≤ 12 ∧ 1 ≤ da ∧ da ≤ 31 ∧ h < 24 ∧ mi < 60 ∧ se < 60
        then some ⟨y, mo, da, h, mi, se⟩
        else none
      | _, _, _, _, _, _ => none
    | _, _ => none
  | _ => none

/-- Record as returned by `Aliases::find()` (Rust `AliasRecord`), with the
timestamp parsed. -/
structure AliasRecord where
  seqalias_id : Nat
  seqid : String
  aliasText : String
  added : Timestamp
  is_current : Bool
  nspace : String
deriving DecidableEq

/-- Datastructure for a query to `Aliases::find()` (Rust `Query`). -/
structure Query where
  nspace : Option String
  aliasVal : Option String
  seqid : Option String
  current_only : Bool

/-- `impl Default for Query`: everything unset, `current_only = true`. -/
def defaultQuery : Query := ⟨none, none, none, true⟩

/-- `eq_or_like`: a filter value containing `%` selects the SQL `like`
operator, otherwise `=`. -/
def usesLike (s : String) : Bool := s.toList.contains '%'

/-- ASCII-fold a character to lower case (SQLite `LIKE` is
case-insensitive on ASCII). -/
def charFold (c : Char) : Char :=
  if 'A' ≤ c ∧ c ≤ 'Z' then Char.ofNat (c.toNat + 32) else c

/-- SQL `LIKE` pattern matching: `%` matches any run of characters, `_` a
single character, anything else itself (ASCII case-insensitively). -/
def likeMatch : List Char → List Char → Bool
  | [], [] => true
  | [], _ :: _ => false
  | '%' :: ps, [] => likeMatch ps []
  | '%' :: ps, c :: s => likeMatch ps (c :: s) || likeMatch ('%' :: ps) s
  | '_' :: _, [] => false
  | '_' :: ps, _ :: s => likeMatch ps s
  | _ :: _, [] => false
  | p :: ps, c :: s => (charFold p == charFold c) && likeMatch ps s
termination_by ps s => ps.length + s.length
decreasing_by all_goals (simp_wf <;> omega)

/-- One WHERE clause as built by `Aliases::find`: `col <op> ?` where the
operator is chosen by `eq_or_like` from the filter value. -/
def applyFilter (pat col : String) : Bool :=
  if usesLike pat then likeMatch pat.toList col.toList else pat == col

/-- Conjunction of the WHERE clauses `Aliases::find` builds for a query.
Note the `seqid` filter is emitted against the `alias` column, exactly as
in the source (`clauses.push(format!("alias {} ?", eq_or_like(seqid)))`). -/
def matchesQuery (q : Query) (r : AliasRow) : Bool :=
  (match q.nspace with
   | none => true
   | some ns => applyFilter ns r.nspace) &&
  (match q.aliasVal with
   | none => true
   | some a => applyFilter a r.aliasText) &&
  (match q.seqid with
   | none => true
   | some sid => applyFilter sid r.aliasText) &&
  (!q.current_only || r.is_current)

/-- Lexicographic strict order on character lists by code point (SQLite
`BINARY` collation on the UTF-8 text, restricted to the values at play). -/
def charListLt : List Char → List Char → Bool
  | [], [] => false
  | [], _ :: _ => true
  | _ :: _, [] => false
  | a :: as, b :: bs => a.toNat < b.toNat || (a.toNat == b.toNat && charListLt as bs)

/-- Strict string order used for `ORDER BY`. -/
def strLt (a b : String) : Bool := charListLt a.toList b.toList

/-- Reflexive string order used for `ORDER BY`. -/
def strLe (a b : String) : Bool := strLt a b || a == b

/-- `ORDER BY seq_id, namespace, alias` comparison on rows. -/
def rowLe (a b : AliasRow) : Bool :=
  strLt a.seqid b.seqid ||
    (a.seqid == b.seqid &&
      (strLt a.nspace b.nspace ||
        (a.nspace == b.nspace && strLe a.aliasText b.aliasText)))

/-- Insertion step of the sort modelling `ORDER BY`. -/
def insertRow (x : AliasRow) : List AliasRow → List AliasRow
  | [] => [x]
  | y :: ys => if rowLe x y then x :: y :: ys else y :: insertRow x ys

/-- Sort rows by `(seq_id, namespace, alias)` as the SQL `ORDER BY` does. -/
def sortRows : List AliasRow → List AliasRow
  | [] => []
  | x :: xs => insertRow x (sortRows xs)

/-- What the row-mapping closure hands to the consumer callback `f`:
`f(row.map_err(...))` delivers either a decoded record or a per-row
error. -/
inductive RowResult where
  | ok (r : AliasRecord)
  | err (msg : String)
deriving DecidableEq

/-- Outcome of one call to `Aliases::find`: either the iteration finished,
with the list of values delivered to the callback in order, or the process
panicked part-way (values delivered before the panic listed). -/
inductive FindOutcome where
  | finished (delivered : List RowResult)
  | panicked (delivered : List RowResult) (msg : String)
deriving DecidableEq

/-- Iteration of `stmt.query_map(...)` in `Aliases::find`: each row's
`added` TEXT is parsed with `NaiveDateTime::parse_from_str(...)
.expect("could not convert timestamp")` — a parse failure *panics*;
otherwise the decoded record is delivered to the callback. -/
def findGo : List AliasRow → List RowResult → FindOutcome
  | [], acc => .finished acc.reverse
  | r :: rs, acc =>
    match parseTimestamp r.added with
    | none => .panicked acc.reverse "could not convert timestamp"
    | some t =>
      findGo rs (.ok ⟨r.seqalias_id, r.seqid, r.aliasText, t, r.is_current, r.nspace⟩ :: acc)

/-- `Aliases::find(query, f)` over a database given as a list of rows: the
rows selected by the WHERE clauses, in `ORDER BY seq_id, namespace, alias`
order, are decoded one by one and delivered to the callback. -/
def find (db : List AliasRow) (q : Query) : FindOutcome :=
  findGo (sortRows (db.filter (matchesQuery q))) []

/-- Error kinds produced by the modelled operations, following
`src/error.rs` (the `anyhow!` errors of `repo.rs`/`fasta.rs` are modelled
structurally, keeping the data their messages carry). -/
inductive Error where
  /-- `"Could not resolve alias {} to seqid!"`, carrying the alias text. -/
  | aliasDbResolve (value : String)
  /-- `"Alias {} resolved to multiple seqids: {:?}"`, carrying the alias
  text and the collected seqid list. -/
  | aliasDbResolutionAmbiguous (value : String) (seqids : List String)
  /-- `Error::SeqSepoCacheWrite` -/
  | seqSepoCacheWrite (msg : String)
  /-- `Error::SeqSepoCacheKey` (key not found in cache), carrying the key. -/
  | seqSepoCacheKey (key : String)
  /-- `Position::try_from` failure (noodles positions are 1-based; the
  conversion of 0 fails), carrying the rejected value. -/
  | convertPosition (n : Nat)
  /-- `rusqlite` `QueryReturnedNoRows` from `fetch_seqinfo`'s `query_row`. -/
  | queryNoRows (seqid : String)
  /-- An error returned by the external indexed block reader. -/
  | readerFailure (msg : String)
deriving DecidableEq

/-- A row of the `seqinfo` table (Rust `SeqInfoRecord`); the timestamp is
kept as the raw TEXT column. -/
structure SeqInfoRecord where
  seq_id : String
  len : Nat
  alpha : String
  added : String
  relpath : String
deriving DecidableEq

/-- Result of an operation that may return a value, return an error, or
panic (Rust `.expect`/`.unwrap`). -/
inductive Outcome (α : Type) where
  | ok (val : α)
  | err (e : Error)
  | panicked (msg : String)
deriving DecidableEq

/-- `ORDER BY added DESC` comparison for `seqinfo` rows (the TEXT
timestamps of format `YYYY-MM-DD HH:MM:SS` sort chronologically as
strings). -/
def seqinfoGe (a b : SeqInfoRecord) : Bool := strLe b.added a.added

/-- Insertion step of the descending sort on `seqinfo` rows. -/
def insertSeqinfo (x : SeqInfoRecord) : List SeqInfoRecord → List SeqInfoRecord
  | [] => [x]
  | y :: ys => if seqinfoGe x y then x :: y :: ys else y :: insertSeqinfo x ys

/-- Sort `seqinfo` rows by `added` descending, as the SQL `ORDER BY` does. -/
def sortSeqinfo : List SeqInfoRecord → List SeqInfoRecord
  | [] => []
  | x :: xs => insertSeqinfo x (sortSeqinfo xs)

/-- `FastaDir::fetch_seqinfo`: `select ... from seqinfo where seq_id = ?
order by added desc` consumed with `query_row` (first row; no row is a
`QueryReturnedNoRows` error).  The row-mapping closure parses the `added`
TEXT with `.expect("could not convert timestamp")`, so an unparsable
timestamp panics. -/
def fetchSeqinfo (rows : List SeqInfoRecord) (seq_id : String) :
    Outcome SeqInfoRecord :=
  match sortSeqinfo (rows.filter (fun r => r.seq_id == seq_id)) with
  | [] => .err (.queryNoRows seq_id)
  | r :: _ =>
    match parseTimestamp r.added with
    | none => .panicked "could not convert timestamp"
    | some _ => .ok r

/-- `noodles::core::Position::try_from` on a `usize`: positions are
1-based, so converting 0 fails. -/
def positionTryFrom (n : Nat) : Except Error Nat :=
  if n = 0 then .error (.convertPosition n) else .ok n

/-- The external indexed block reader (noodles bgzf + fai): given the
storage-relative container path, the record name and a 1-based inclusive
position range, it returns the decoded text or an error.  The core only
calls it, so it is a parameter of the model. -/
def Reader : Type := String → String → Nat → Nat → Except Error String

/-- `FastaDir::fetch_sequence_part(seq_id, start, end)`: look up the
`SeqInfoRecord`; convert `start.map(|s| s + 1).unwrap_or(1)` and
`end.map(|e| min(e, seqinfo.len)).unwrap_or(seqinfo.len)` to 1-based
positions (`try_from` fails on 0); query the indexed reader for the
record `seq_id` of the container at `seqinfo.relpath` over that inclusive
range. -/
def fetchSequencePart (reader : Reader) (rows : List SeqInfoRecord)
    (seq_id : String) (b e : Option Nat) : Outcome String :=
  match fetchSeqinfo rows seq_id with
  | .panicked m => .panicked m
  | .err er => .err er
  | .ok seqinfo =>
    match positionTryFrom ((b.map (· + 1)).getD 1) with
    | .error er => .err er
    | .ok start =>
      match positionTryFrom ((e.map (fun x => min x seqinfo.len)).getD seqinfo.len) with
      | .error er => .err er
      | .ok stop =>
        match reader seqinfo.relpath seq_id start stop with
        | .error er => .err er
        | .ok text => .ok text

/-- Argument of the retrieval entry points (Rust `AliasOrSeqId`). -/
inductive AliasOrSeqId where
  | Alias (value : String) (nspace : Option String)
  | SeqId (seqid : String)
deriving DecidableEq

/-- The callback of `SeqRepo::fetch_sequence_part` runs
`seq_ids.push(record.unwrap().seqid)`: collect the seqids of the delivered
records, or `none` when a delivered per-row error makes `unwrap` panic. -/
def unwrapSeqIds : List RowResult → Option (List String)
  | [] => some []
  | .ok r :: rest => (unwrapSeqIds rest).map (r.seqid :: ·)
  | .err _ :: _ => none

/-- `SeqRepo::fetch_sequence_part`: a bare seqid goes straight to the
FASTA directory; an alias is resolved through `Aliases::find` with
`Query { namespace, alias: Some(value), ..Default::default() }` (so
`seqid: None`, `current_only: true`); zero collected seqids error, more
than one collected seqid error, otherwise `seq_ids[0]` is fetched. -/
def repoFetchPart (reader : Reader) (aliasRows : List AliasRow)
    (fastaRows : List SeqInfoRecord) (a : AliasOrSeqId) (b e : Option Nat) :
    Outcome String :=
  match a with
  | .SeqId seqid => fetchSequencePart reader fastaRows seqid b e
  | .Alias value nspace =>
    match find aliasRows ⟨nspace, some value, none, true⟩ with
    | .panicked _ msg => .panicked msg
    | .finished ds =>
      match unwrapSeqIds ds with
      | none => .panicked "called `Result::unwrap()` on an `Err` value"
      | some seq_ids =>
        if seq_ids.isEmpty then .err (.aliasDbResolve value)
        else if seq_ids.length > 1 then
          .err (.aliasDbResolutionAmbiguous value seq_ids)
        else fetchSequencePart reader fastaRows seq_ids.headI b e

/-- The `name` computed by `build_key` of `src/cached.rs`: the bare seqid,
or `"<namespace>:<value>"` for an alias with a non-empty namespace, or the
bare alias otherwise. -/
def buildKeyName (a : AliasOrSeqId) : String :=
  match a with
  | .Alias value nspace =>
    match nspace with
    | some ns => if ns.isEmpty then value else ns ++ ":" ++ value
    | none => value
  | .SeqId seqid => seqid

/-- The `suffix` computed by `build_key`: `""` for `(None, None)`, and
`"?-<end>"`, `"<begin>-?"` or `"<begin>-<end>"` otherwise. -/
def buildKeyTail (b e : Option Nat) : String :=
  match b, e with
  | none, none => ""
  | none, some e => "?-" ++ toString e
  | some b, none => toString b ++ "-?"
  | some b, some e => toString b ++ "-" ++ toString e

/-- `build_key` of `src/cached.rs`: the name, with a non-empty range
suffix appended as `"<name>:<suffix>"`. -/
def buildKey (a : AliasOrSeqId) (b e : Option Nat) : String :=
  if (buildKeyTail b e).isEmpty then buildKeyName a
  else buildKeyName a ++ ":" ++ buildKeyTail b e

/-- The identifier part of the cache key as worded by the specification:
bare seqid / `namespace:alias` when a non-empty namespace is given / bare
alias. -/
def specIdent (a : AliasOrSeqId) : String :=
  match a with
  | .SeqId seqid => seqid
  | .Alias value (some ns) => if ns = "" then value else ns ++ ":" ++ value
  | .Alias value none => value

/-- A range bound rendered per the specification: the number, `?` when
absent. -/
def specBound : Option Nat → String
  | none => "?"
  | some n => toString n

/-- The cache key as worded by the specification: the identifier followed,
when any bound is present, by `:` and `"<begin|?>-<end|?>"`.  Stated
separately from `buildKey` so their equality is a theorem. -/
def cacheKeySpec (a : AliasOrSeqId) (b e : Option Nat) : String :=
  match b, e with
  | none, none => specIdent a
  | _, _ => specIdent a ++ ":" ++ specBound b ++ "-" ++ specBound e

/-- Mutable state of a `CacheWritingSeqRepo`: the in-memory `HashMap`
(modelled as an association list whose head shadows later entries, as
`HashMap::insert` overwrites) and the records so far appended to the
persisted FASTA cache file, in file order. -/
structure CWState where
  cache : List (String × String)
  fileRecords : List (String × String)
deriving DecidableEq

/-- Result of one append attempt on the persisted cache file: `none` for
success, `some msg` for an I/O failure with that message. -/
def WriteResult : Type := Option String

/-- `CacheWritingSeqRepo::fetch_sequence_part`: build the key; on an
in-memory hit return the cached value; on a miss delegate to the wrapped
repository, *insert the result into the in-memory map*, then append the
`(key, value)` record to the cache file, a failed append surfacing as
`Error::SeqSepoCacheWrite`.  The wrapped repository's behaviour and the
append outcome are parameters. -/
def cacheWritingFetch (repo : AliasOrSeqId → Option Nat → Option Nat → Outcome String)
    (writeRes : WriteResult) (st : CWState) (a : AliasOrSeqId) (b e : Option Nat) :
    Outcome String × CWState :=
  let key := buildKey a b e
  match List.lookup key st.cache with
  | some value => (.ok value, st)
  | none =>
    match repo a b e with
    | .panicked m => (.panicked m, st)
    | .err er => (.err er, st)
    | .ok value =>
      let st1 : CWState := { st with cache := (key, value) :: st.cache }
      match writeRes with
      | some msg => (.err (.seqSepoCacheWrite msg), st1)
      | none => (.ok value, { st1 with fileRecords := st1.fileRecords ++ [(key, value)] })

/-- Run a sequence of `fetch_sequence_part` calls against a write-back
cache whose appends succeed, threading the state. -/
def runCalls (repo : AliasOrSeqId → Option Nat → Option Nat → Outcome String) :
    List (AliasOrSeqId × Option Nat × Option Nat) → CWState → CWState
  | [], st => st
  | c :: cs, st => runCalls repo cs (cacheWritingFetch repo none st c.1 c.2.1 c.2.2).2

/-- Write-back cache invariant: the persisted file holds at most one
record per key, and every key in the file is present in the in-memory
index. -/
def CWInv (st : CWState) : Prop :=
  (st.fileRecords.map Prod.fst).Nodup ∧
    ∀ k ∈ st.fileRecords.map Prod.fst, (List.lookup k st.cache).isSome

instance (st : CWState) : Decidable (CWInv st) := by
  unfold CWInv; infer_instance

/-- `CacheReadingSeqRepo::fetch_sequence_part`: look the key up in the
index loaded at construction; a hit returns the stored value, a miss is
`Error::SeqSepoCacheKey(key)`.  There is no repository to fall back to. -/
def cacheReadingFetch (cache : List (String × String)) (a : AliasOrSeqId)
    (b e : Option Nat) : Outcome String :=
  let key := buildKey a b e
  match List.lookup key cache with
  | some seq => .ok seq
  | none => .err (.seqSepoCacheKey key)

/-! ## Concrete fixtures used by witnesses and counterexamples -/

/-- A reader that decodes every queried range to `"ACGT"`. -/
def reader0 : Reader := fun _ _ _ _ => .ok "ACGT"

/-- Current alias record `ensembl:A ↦ S`. -/
def rowEns : AliasRow := ⟨1, "S", "A", "2023-02-16 09:46:06", true, "ensembl"⟩

/-- Current alias record `refseq:A ↦ S` (same seqid as `rowEns`). -/
def rowRef : AliasRow := ⟨2, "S", "A", "2023-02-16 09:46:07", true, "refseq"⟩

/-- Alias record whose `added` column is not a timestamp. -/
def rowBad : AliasRow := ⟨3, "T", "B", "bad", true, "ns"⟩

/-- Alias record with seqid `S1` and alias text `X`. -/
def rowSX : AliasRow := ⟨1, "S1", "X", "2023-02-16 09:46:06", true, "ns"⟩

/-- `seqinfo` row for seqid `S` of length 4. -/
def fastaRowS : SeqInfoRecord := ⟨"S", 4, "ACGT", "2023-02-16 09:46:06", "2023/p.fa.bgz"⟩

/-- `seqinfo` row for seqid `Z` of recorded length 0. -/
def fastaRowZ : SeqInfoRecord := ⟨"Z", 0, "ACGT", "2023-02-16 09:46:06", "2023/z.fa.bgz"⟩

/-- A wrapped repository facade that answers `"ACGT"` to everything. -/
def repo0 : AliasOrSeqId → Option Nat → Option Nat → Outcome String :=
  fun _ _ _ => .ok "ACGT"

/-- Freshly constructed write-back cache state (no prior cache file). -/
def emptyCW : CWState := ⟨[], []⟩

/-! ## Helper lemmas -/

/-- A string with non-empty character data is not `isEmpty`. -/
theorem isEmptyFalse_of_data {s : String} (h : s.data ≠ []) : s.isEmpty = false := by
  rw [Bool.eq_false_iff]
  intro hh
  exact h (by rw [(String.isEmpty_iff s).mp hh])

/-- `"?-" ++ t` is never the empty string. -/
theorem isEmpty_qmark_append (t : String) : ("?-" ++ t).isEmpty = false := by
  apply isEmptyFalse_of_data
  rw [String.data_append]
  simp

/-- `t ++ "-?"` is never the empty string. -/
theorem isEmpty_append_qmark (t : String) : (t ++ "-?").isEmpty = false := by
  apply isEmptyFalse_of_data
  rw [String.data_append]
  simp

/-- `t ++ "-" ++ u` is never the empty string. -/
theorem isEmpty_append_dash (t u : String) : (t ++ "-" ++ u).isEmpty = false := by
  apply isEmptyFalse_of_data
  rw [String.data_append, String.data_append]
  simp

/-! ## Claims -/

/-- The empty string satisfies `isEmpty`. -/
theorem empty_str_isEmpty : ("" : String).isEmpty = true := rfl

/-- C6: for every `AliasOrSeqId` and optional range, `build_key` renders
exactly the key the specification describes: bare seqid /
`namespace:alias` for a non-empty namespace / bare alias, and a range
suffix `"<begin|?>-<end|?>"` appended after `:` unless both bounds are
absent. -/
theorem claimC6_theorem (a : AliasOrSeqId) (b e : Option Nat) :
    buildKey a b e = cacheKeySpec a b e := by
  have hname : buildKeyName a = specIdent a := by
    cases a with
    | SeqId s => rfl
    | Alias v ns =>
      cases ns with
      | none => rfl
      | some n =>
        show (if n.isEmpty then v else n ++ ":" ++ v) =
          (if n = "" then v else n ++ ":" ++ v)
        by_cases hn : n = ""
        · subst hn; rfl
        · rw [if_neg (fun h => hn ((String.isEmpty_iff n).mp h)), if_neg hn]
  cases b with
  | none =>
    cases e with
    | none =>
      simp only [buildKey, buildKeyTail, cacheKeySpec]
      rw [if_pos empty_str_isEmpty]
      exact hname
    | some ev =>
      simp only [buildKey, buildKeyTail, cacheKeySpec, specBound]
      rw [if_neg (by simp [isEmpty_qmark_append]), hname,
        show ("?-" : String) = "?" ++ "-" from rfl]
      simp only [← String.append_assoc]
  | some bv =>
    cases e with
    | none =>
      simp only [buildKey, buildKeyTail, cacheKeySpec, specBound]
      rw [if_neg (by simp [isEmpty_append_qmark]), hname,
        show ("-?" : String) = "-" ++ "?" from rfl]
      simp only [← String.append_assoc]
    | some ev =>
      simp only [buildKey, buildKeyTail, cacheKeySpec, specBound]
      rw [if_neg (by simp [isEmpty_append_dash]), hname]
      simp only [← String.append_assoc]

/-- C10: the cache key function is not injective across input variants:
for a non-empty namespace `n`, the alias request `{value: v, namespace:
Some(n)}` and the bare-seqid request `SeqId("n:v")` build byte-identical
keys for every range, so both cache variants treat them as the same
entry. -/
theorem claimC10_theorem (v n : String) (b e : Option Nat) (hn : n ≠ "") :
    buildKey (.Alias v (some n)) b e = buildKey (.SeqId (n ++ ":" ++ v)) b e := by
  have hname : buildKeyName (.Alias v (some n)) = buildKeyName (.SeqId (n ++ ":" ++ v)) := by
    show (if n.isEmpty then v else n ++ ":" ++ v) = n ++ ":" ++ v
    rw [if_neg (fun h => hn ((String.isEmpty_iff n).mp h))]
  simp only [buildKey, hname]

/-- Witness for C10 at the concrete collision `{alias "X", namespace "A"}`
vs seqid `"A:X"` with range `(None, Some 4)`. -/
theorem claimC10_witness :
    buildKey (.Alias "X" (some "A")) none (some 4) =
      buildKey (.SeqId ("A" ++ ":" ++ "X")) none (some 4) :=
  claimC10_theorem "X" "A" none (some 4) (by decide)

/-- C8: the read-only cache variant returns the stored value exactly for
keys present in its index, returns a key-not-found error carrying the key
otherwise, and every successful answer comes from the index (the model has
no repository to fall back to). -/
theorem claimC8_theorem (cache : List (String × String)) (a : AliasOrSeqId)
    (b e : Option Nat) :
    (∀ v, List.lookup (buildKey a b e) cache = some v →
        cacheReadingFetch cache a b e = .ok v) ∧
    (List.lookup (buildKey a b e) cache = none →
        cacheReadingFetch cache a b e = .err (.seqSepoCacheKey (buildKey a b e))) ∧
    (∀ v, cacheReadingFetch cache a b e = .ok v →
        List.lookup (buildKey a b e) cache = some v) := by
  refine ⟨?_, ?_, ?_⟩
  · intro v hv
    simp [cacheReadingFetch, hv]
  · intro hv
    simp [cacheReadingFetch, hv]
  · intro v hv
    cases hLookup : List.lookup (buildKey a b e) cache with
    | none =>
      simp only [cacheReadingFetch, hLookup] at hv
      exact Outcome.noConfusion hv
    | some w =>
      simp only [cacheReadingFetch, hLookup, Outcome.ok.injEq] at hv
      rw [hv]

/-- Witness for C8: a hit on key `"S1:0-4"` returns the stored value, and
a miss on the empty index returns the key-not-found error carrying the
key. -/
theorem claimC8_witness :
    cacheReadingFetch [("S1:0-4", "ACGT")] (.SeqId "S1") (some 0) (some 4) = .ok "ACGT" ∧
      cacheReadingFetch [] (.SeqId "S1") none none =
        .err (.seqSepoCacheKey (buildKey (.SeqId "S1") none none)) :=
  ⟨(claimC8_theorem [("S1:0-4", "ACGT")] (.SeqId "S1") (some 0) (some 4)).1 "ACGT" (by decide),
    (claimC8_theorem [] (.SeqId "S1") none none).2.1 (by decide)⟩

/-- C9: for a stored sequence id, `fetch_sequence_part` with
`end = Some(0)` fails with the position-conversion error (the clamped end
`min 0 len = 0` cannot become a 1-based `Position`), and in particular
never returns `Ok("")`. -/
theorem claimC9_theorem (reader : Reader) (rows : List SeqInfoRecord) (id : String)
    (b : Option Nat) (si : SeqInfoRecord) (hsi : fetchSeqinfo rows id = .ok si) :
    fetchSequencePart reader rows id b (some 0) = .err (.convertPosition 0) ∧
    ∀ s : String, fetchSequencePart reader rows id b (some 0) ≠ .ok s := by
  have hstart : positionTryFrom ((b.map (· + 1)).getD 1) = .ok ((b.getD 0) + 1) := by
    cases b <;> simp [positionTryFrom]
  have h1 : fetchSequencePart reader rows id b (some 0) = .err (.convertPosition 0) := by
    simp [fetchSequencePart, hsi, hstart, positionTryFrom, Nat.zero_min]
  exact ⟨h1, fun s hs => by rw [h1] at hs; exact Outcome.noConfusion hs⟩

/-- Witness for C9 at the stored seqid `S` of length 4. -/
theorem claimC9_witness :
    fetchSeqinfo [fastaRowS] "S" = .ok fastaRowS ∧
      fetchSequencePart reader0 [fastaRowS] "S" none (some 0) =
        .err (.convertPosition 0) :=
  ⟨by decide, (claimC9_theorem reader0 [fastaRowS] "S" none fastaRowS (by decide)).1⟩

/-- C2 (code bug): `Aliases::find` emits the seqid filter against the
`alias` column (`aliases.rs` line 141), so a query with
`seqid = Some("X")` returns the record whose *alias* is `"X"` even though
its sequence id is `"S1" ≠ "X"`, and a query with the record's actual
sequence id `"S1"` returns nothing. -/
theorem claimC2_theorem :
    find [rowSX] ⟨none, none, some "X", true⟩ =
        .finished [.ok ⟨1, "S1", "X", ⟨2023, 2, 16, 9, 46, 6⟩, true, "ns"⟩] ∧
      ("S1" : String) ≠ "X" ∧
      find [rowSX] ⟨none, none, some "S1", true⟩ = .finished [] := by decide

/-- C4 (code bug): a row whose timestamp does not parse makes
`Aliases::find` panic (`.expect("could not convert timestamp")`), aborting
the whole iteration after the rows already delivered, instead of
surfacing a per-row error to the callback and continuing. -/
theorem claimC4_theorem :
    parseTimestamp "bad" = none ∧
      find [rowEns, rowBad] defaultQuery =
        .panicked [.ok ⟨1, "S", "A", ⟨2023, 2, 16, 9, 46, 6⟩, true, "ensembl"⟩]
          "could not convert timestamp" := by decide

/-- C1 counterexample: two current alias records for alias `A` that map to
the *same* seqid `S` make the facade return the ambiguous-alias error even
though exactly one distinct sequence id results; the claim says this case
proceeds to the sequence-store fetch (which here would answer
`Ok("ACGT")`). -/
theorem claimC1_counterexample :
    repoFetchPart reader0 [rowRef, rowEns] [fastaRowS] (.Alias "A" none) none none =
        .err (.aliasDbResolutionAmbiguous "A" ["S", "S"]) ∧
      (∀ x ∈ (["S", "S"] : List String), x = "S") ∧
      fetchSequencePart reader0 [fastaRowS] "S" none none = .ok "ACGT" := by decide

/-- C1 (amended): with `current_only = true`, zero collected alias records
give the could-not-resolve error carrying the alias text; more than one
collected record — distinct seqids or not — gives the ambiguous error
carrying the alias text and the full collected seqid list; exactly one
collected record proceeds to the sequence-store fetch with its seqid. -/
theorem claimC1_theorem (reader : Reader) (aliasRows : List AliasRow)
    (fastaRows : List SeqInfoRecord) (value : String) (nspace : Option String)
    (b e : Option Nat) (ds : List RowResult) (ids : List String)
    (hfind : find aliasRows ⟨nspace, some value, none, true⟩ = .finished ds)
    (hids : unwrapSeqIds ds = some ids) :
    (ids = [] →
      repoFetchPart reader aliasRows fastaRows (.Alias value nspace) b e =
        .err (.aliasDbResolve value)) ∧
    (2 ≤ ids.length →
      repoFetchPart reader aliasRows fastaRows (.Alias value nspace) b e =
        .err (.aliasDbResolutionAmbiguous value ids)) ∧
    (∀ s, ids = [s] →
      repoFetchPart reader aliasRows fastaRows (.Alias value nspace) b e =
        fetchSequencePart reader fastaRows s b e) := by
  have hbase : repoFetchPart reader aliasRows fastaRows (.Alias value nspace) b e =
      (if ids.isEmpty then Outcome.err (.aliasDbResolve value)
       else if ids.length > 1 then .err (.aliasDbResolutionAmbiguous value ids)
       else fetchSequencePart reader fastaRows ids.headI b e) := by
    simp only [repoFetchPart, hfind, hids]
  refine ⟨?_, ?_, ?_⟩
  · intro h
    subst h
    simpa using hbase
  · intro h
    have hne : ids.isEmpty = false := by
      cases ids with
      | nil => simp at h
      | cons x xs => rfl
    rw [hbase, if_neg (by simp [hne]), if_pos (by omega)]
  · intro s hs
    subst hs
    rw [hbase]
    simp [List.headI]

/-- Witness for C1 (amended): a single current alias record resolves and
the facade's answer is exactly the sequence-store fetch for its seqid. -/
theorem claimC1_witness :
    repoFetchPart reader0 [rowEns] [fastaRowS] (.Alias "A" none) none none =
      fetchSequencePart reader0 [fastaRowS] "S" none none :=
  (claimC1_theorem reader0 [rowEns] [fastaRowS] "A" none none none
      [.ok ⟨1, "S", "A", ⟨2023, 2, 16, 9, 46, 6⟩, true, "ensembl"⟩] ["S"]
      (by decide) (by decide)).2.2 "S" rfl

/-- C3 counterexample: after a failed append (writer error `"io"`) the key
is already in the in-memory index, and the subsequent identical fetch
(with a now-working writer) is served from the index — it returns the
cached value, leaves the persisted file empty and never retries the
append. -/
theorem claimC3_counterexample :
    cacheWritingFetch repo0 (some "io") emptyCW (.SeqId "S1") none none =
        (.err (.seqSepoCacheWrite "io"), ⟨[("S1", "ACGT")], []⟩) ∧
      cacheWritingFetch repo0 none ⟨[("S1", "ACGT")], []⟩ (.SeqId "S1") none none =
        (.ok "ACGT", ⟨[("S1", "ACGT")], []⟩) := by decide

/-- C3 (amended): on a miss, a failed compute leaves the state untouched
(the append indeed happens only after a successful compute), but the
computed value is inserted into the in-memory index *before* the append,
so a failed append leaves the key cached and a subsequent fetch with the
same arguments is served from the in-memory index without retrying the
append. -/
theorem claimC3_theorem (repo : AliasOrSeqId → Option Nat → Option Nat → Outcome String)
    (st : CWState) (a : AliasOrSeqId) (b e : Option Nat)
    (hmiss : List.lookup (buildKey a b e) st.cache = none) :
    (∀ er, repo a b e = .err er →
        ∀ w, cacheWritingFetch repo w st a b e = (.err er, st)) ∧
    (∀ v msg, repo a b e = .ok v →
        cacheWritingFetch repo (some msg) st a b e =
          (.err (.seqSepoCacheWrite msg),
            ⟨(buildKey a b e, v) :: st.cache, st.fileRecords⟩)) ∧
    (∀ v w fr, cacheWritingFetch repo w ⟨(buildKey a b e, v) :: st.cache, fr⟩ a b e =
        (.ok v, ⟨(buildKey a b e, v) :: st.cache, fr⟩)) := by
  refine ⟨?_, ?_, ?_⟩
  · intro er her w
    simp [cacheWritingFetch, hmiss, her]
  · intro v msg hok
    simp [cacheWritingFetch, hmiss, hok]
  · intro v w fr
    simp [cacheWritingFetch, List.lookup_cons_self]

/-- Witness for C3 (amended): concrete failed append on a fresh cache,
then the same fetch served from the in-memory index. -/
theorem claimC3_witness :
    cacheWritingFetch repo0 (some "io") emptyCW (.SeqId "S1") none none =
        (.err (.seqSepoCacheWrite "io"),
          ⟨[(buildKey (.SeqId "S1") none none, "ACGT")], []⟩) ∧
      cacheWritingFetch repo0 none
          ⟨[(buildKey (.SeqId "S1") none none, "ACGT")], []⟩ (.SeqId "S1") none none =
        (.ok "ACGT", ⟨[(buildKey (.SeqId "S1") none none, "ACGT")], []⟩) :=
  ⟨(claimC3_theorem repo0 emptyCW (.SeqId "S1") none none (by decide)).2.1 "ACGT" "io" rfl,
    (claimC3_theorem repo0 emptyCW (.SeqId "S1") none none (by decide)).2.2 "ACGT" none []⟩

/-- C5 counterexample: a stored sequence id with recorded length 0 and
`end = Some(1) > 0` yields a position-conversion error — the end bound is
not "silently clamped, never an error", and nothing is delegated to the
reader. -/
theorem claimC5_counterexample :
    fetchSeqinfo [fastaRowZ] "Z" = .ok fastaRowZ ∧
      fastaRowZ.len = 0 ∧
      fetchSequencePart reader0 [fastaRowZ] "Z" none (some 1) =
        .err (.convertPosition 0) := by decide

/-- C5 (amended): for a stored id with recorded length `L` and `end > L`,
`fetch(id, begin, Some end) = fetch(id, begin, Some L)` always; and when
`L ≥ 1` the call delegates to the indexed reader with the 1-based
inclusive range `[begin+1, min(end, L)]` (for `L = 0` both calls fail with
the position-conversion error instead). -/
theorem claimC5_theorem (reader : Reader) (rows : List SeqInfoRecord) (id : String)
    (b : Option Nat) (e : Nat) (si : SeqInfoRecord)
    (hsi : fetchSeqinfo rows id = .ok si) (hlt : si.len < e) :
    fetchSequencePart reader rows id b (some e) =
        fetchSequencePart reader rows id b (some si.len) ∧
      (1 ≤ si.len →
        fetchSequencePart reader rows id b (some e) =
          match reader si.relpath id ((b.getD 0) + 1) (min e si.len) with
          | .error er => .err er
          | .ok text => .ok text) := by
  have hstart : positionTryFrom ((b.map (· + 1)).getD 1) = .ok ((b.getD 0) + 1) := by
    cases b <;> simp [positionTryFrom]
  have hmin : min e si.len = si.len := Nat.min_eq_right (Nat.le_of_lt hlt)
  constructor
  · simp only [fetchSequencePart, hsi, hstart]
    simp [hmin, Nat.min_self]
  · intro hlen
    have hpos : positionTryFrom si.len = .ok si.len := by
      unfold positionTryFrom
      rw [if_neg (by omega)]
    simp only [fetchSequencePart, hsi, hstart]
    simp [hmin, hpos]

/-- Witness for C5 (amended) at the stored seqid `S` of length 4 with
`end = 10 > 4`. -/
theorem claimC5_witness :
    fetchSequencePart reader0 [fastaRowS] "S" none (some 10) =
        fetchSequencePart reader0 [fastaRowS] "S" none (some fastaRowS.len) ∧
      fetchSequencePart reader0 [fastaRowS] "S" none (some 10) =
        match reader0 fastaRowS.relpath "S" (((none : Option Nat).getD 0) + 1)
            (min 10 fastaRowS.len) with
        | .error er => .err er
        | .ok text => .ok text :=
  ⟨(claimC5_theorem reader0 [fastaRowS] "S" none 10 fastaRowS (by decide) (by decide)).1,
    (claimC5_theorem reader0 [fastaRowS] "S" none 10 fastaRowS (by decide) (by decide)).2
      (by decide)⟩

/-- One write-back cache step with a successful append preserves the
invariant that the persisted file has at most one record per key and every
persisted key is present in the in-memory index. -/
theorem cwStep_preserves (repo : AliasOrSeqId → Option Nat → Option Nat → Outcome String)
    (st : CWState) (a : AliasOrSeqId) (b e : Option Nat) (hInv : CWInv st) :
    CWInv (cacheWritingFetch repo none st a b e).2 := by
  cases hL : List.lookup (buildKey a b e) st.cache with
  | some v =>
    simp only [cacheWritingFetch, hL]
    exact hInv
  | none =>
    cases hR : repo a b e with
    | panicked m =>
      simp only [cacheWritingFetch, hL, hR]
      exact hInv
    | err er =>
      simp only [cacheWritingFetch, hL, hR]
      exact hInv
    | ok v =>
      simp only [cacheWritingFetch, hL, hR]
      obtain ⟨h1, h2⟩ := hInv
      constructor
      · rw [List.map_append, List.nodup_append]
        refine ⟨h1, List.nodup_singleton _, fun k hk hk2 => ?_⟩
        simp only [List.map_cons, List.map_nil, List.mem_singleton] at hk2
        subst hk2
        have hsome := h2 _ hk
        rw [hL] at hsome
        simp at hsome
      · intro k hk
        rw [List.map_append] at hk
        rcases List.mem_append.mp hk with hmem | hmem
        · have hsome := h2 k hmem
          rw [List.lookup_cons]
          cases hbe : (k == buildKey a b e) <;> simp [hsome]
        · simp only [List.map_cons, List.map_nil, List.mem_singleton] at hmem
          subst hmem
          rw [List.lookup_cons_self]
          rfl

/-- C7: a fetch whose key is already in the in-memory index returns the
cached value with the state unchanged — for every wrapped repository and
every writer behaviour, so neither the facade nor the file is touched —
and any sequence of fetches with succeeding appends preserves the
at-most-one-persisted-record-per-key invariant. -/
theorem claimC7_theorem :
    (∀ repo w st a (b e : Option Nat) v,
        List.lookup (buildKey a b e) st.cache = some v →
        cacheWritingFetch repo w st a b e = (.ok v, st)) ∧
    (∀ repo calls st, CWInv st → CWInv (runCalls repo calls st)) := by
  constructor
  · intro repo w st a b e v hv
    simp [cacheWritingFetch, hv]
  · intro repo calls
    induction calls with
    | nil => exact fun st h => h
    | cons c cs ih =>
      exact fun st h => ih _ (cwStep_preserves repo st c.1 c.2.1 c.2.2 h)

/-- Witness for C7: a hit is served unchanged even with a broken writer,
and two identical fetches from a fresh cache leave the invariant (hence at
most one persisted record for `"S1"`) intact. -/
theorem claimC7_witness :
    cacheWritingFetch repo0 (some "io") ⟨[("S1", "ACGT")], []⟩ (.SeqId "S1") none none =
        (.ok "ACGT", ⟨[("S1", "ACGT")], []⟩) ∧
      CWInv (runCalls repo0 [(.SeqId "S1", none, none), (.SeqId "S1", none, none)] emptyCW) :=
  ⟨claimC7_theorem.1 repo0 (some "io") ⟨[("S1", "ACGT")], []⟩ (.SeqId "S1") none none
      "ACGT" (by decide),
    claimC7_theorem.2 repo0 [(.SeqId "S1", none, none), (.SeqId "S1", none, none)]
      emptyCW (by decide)⟩

end SeqRepo
